import Mathlib

/-!
Verification of the ahrefs-cli request executor (package `client`) and
output renderer (package `output`) against their design specification.

The Go source is shallowly embedded: pure fragments become Lean
functions, the retry loop of `Client.Do` becomes a fuel-indexed
recursion over a per-attempt outcome oracle, and the JSON decoding step
of `parseError` is represented by attaching the outcome of
`json.Unmarshal` to the body value (the Go code branches only on
whether the decode succeeded and on the decoded `error.code` /
`error.message` strings).
-/

namespace Ahrefs

/-- Embedding of Go `net/http.StatusText`: the standard status-text
table; returns the empty string for unrecognized codes. -/
def statusText : Nat → String
  | 100 => "Continue"
  | 101 => "Switching Protocols"
  | 102 => "Processing"
  | 103 => "Early Hints"
  | 200 => "OK"
  | 201 => "Created"
  | 202 => "Accepted"
  | 203 => "Non-Authoritative Information"
  | 204 => "No Content"
  | 205 => "Reset Content"
  | 206 => "Partial Content"
  | 207 => "Multi-Status"
  | 208 => "Already Reported"
  | 226 => "IM Used"
  | 300 => "Multiple Choices"
  | 301 => "Moved Permanently"
  | 302 => "Found"
  | 303 => "See Other"
  | 304 => "Not Modified"
  | 305 => "Use Proxy"
  | 307 => "Temporary Redirect"
  | 308 => "Permanent Redirect"
  | 400 => "Bad Request"
  | 401 => "Unauthorized"
  | 402 => "Payment Required"
  | 403 => "Forbidden"
  | 404 => "Not Found"
  | 405 => "Method Not Allowed"
  | 406 => "Not Acceptable"
  | 407 => "Proxy Authentication Required"
  | 408 => "Request Timeout"
  | 409 => "Conflict"
  | 410 => "Gone"
  | 411 => "Length Required"
  | 412 => "Precondition Failed"
  | 413 => "Request Entity Too Large"
  | 414 => "Request URI Too Long"
  | 415 => "Unsupported Media Type"
  | 416 => "Requested Range Not Satisfiable"
  | 417 => "Expectation Failed"
  | 418 => "I\x27m a teapot"
  | 421 => "Misdirected Request"
  | 422 => "Unprocessable Entity"
  | 423 => "Locked"
  | 424 => "Failed Dependency"
  | 425 => "Too Early"
  | 426 => "Upgrade Required"
  | 428 => "Precondition Required"
  | 429 => "Too Many Requests"
  | 431 => "Request Header Fields Too Large"
  | 451 => "Unavailable For Legal Reasons"
  | 500 => "Internal Server Error"
  | 501 => "Not Implemented"
  | 502 => "Bad Gateway"
  | 503 => "Service Unavailable"
  | 504 => "Gateway Timeout"
  | 505 => "HTTP Version Not Supported"
  | 506 => "Variant Also Negotiates"
  | 507 => "Insufficient Storage"
  | 508 => "Loop Detected"
  | 510 => "Not Extended"
  | 511 => "Network Authentication Required"
  | _ => ""

/-- A response body together with the outcome of Go
`json.Unmarshal(body, &errResp)` for the shape
`\x7berror:\x7bcode,message\x7d\x7d`: `decodeOk` is whether the
unmarshal returned a nil error, and `decodedCode` / `decodedMessage`
are the resulting `errResp.Error.Code` / `errResp.Error.Message`
strings (zero values when the fields are absent). `parseError` consults
the body only through these four components. -/
structure ErrBody where
  raw : String
  decodeOk : Bool
  decodedCode : String
  decodedMessage : String
  deriving DecidableEq, Repr

/-- Embedding of `client.APIError`. -/
structure APIError where
  statusCode : Nat
  code : String
  message : String
  suggestion : String
  docsURL : String
  deriving DecidableEq, Repr

/-- Embedding of `Client.parseError`: build the base error from the
JSON decode (falling back to raw body, then to the status text), then
overlay fixed code/suggestion/docs for recognized status codes. -/
def parseError (statusCode : Nat) (body : ErrBody) : APIError :=
  let base : APIError :=
    if body.decodeOk && body.decodedMessage != "" then
      { statusCode := statusCode, code := body.decodedCode,
        message := body.decodedMessage, suggestion := "", docsURL := "" }
    else
      let m := body.raw
      let m := if m = "" then statusText statusCode else m
      { statusCode := statusCode, code := "", message := m,
        suggestion := "", docsURL := "" }
  if statusCode = 401 ∨ statusCode = 403 then
    { base with
      code := "AUTH_ERROR",
      suggestion := "Check your API key. Run \x27ahrefs config set-key <your-key>\x27 to configure",
      docsURL := "https://docs.ahrefs.com/docs/api/reference/api-keys-creation-and-management" }
  else if statusCode = 429 then
    { base with
      code := "RATE_LIMIT_ERROR",
      suggestion := "Rate limit exceeded. Wait before retrying or check your subscription limits",
      docsURL := "https://docs.ahrefs.com/docs/api/reference/limits-consumption" }
  else if statusCode = 400 then
    { base with
      code := "VALIDATION_ERROR",
      suggestion := "Check request parameters. Use --describe flag to see valid options" }
  else if statusCode = 404 then
    { base with
      code := "NOT_FOUND",
      suggestion := "Endpoint or resource not found. Verify the target and endpoint" }
  else
    base

/-- Embedding of `client.ResponseMeta`. -/
structure ResponseMeta where
  unitsConsumed : Int
  rateLimitRemaining : Int
  responseTimeMS : Int
  deriving DecidableEq, Repr

/-- Embedding of `client.Response`; the body carries the outcome of its
JSON decode (see `ErrBody`). -/
structure Response where
  statusCode : Nat
  body : ErrBody
  headers : List (String × String)
  meta : ResponseMeta
  deriving DecidableEq, Repr

/-- The `client.BaseURL` constant. -/
def BaseURL : String := "https://api.ahrefs.com/v3"

/-- The `client.DefaultTimeout` constant (60 seconds, in nanoseconds as
Go `time.Duration`). -/
def DefaultTimeout : Int := 60 * 1000000000

/-- The `client.DefaultMaxRetries` constant. -/
def DefaultMaxRetries : Int := 3

/-- Embedding of `client.Config`; Go `int` and `time.Duration` are
modelled as `Int`. -/
structure Config where
  apiKey : String
  baseURL : String
  timeout : Int
  maxRetries : Int
  deriving DecidableEq, Repr

/-- Embedding of `client.Client`; `httpTimeout` is the timeout stored
into the constructed `http.Client`. -/
structure Client where
  baseURL : String
  apiKey : String
  httpTimeout : Int
  maxRetries : Int
  deriving DecidableEq, Repr

/-- Embedding of `client.NewClient`: zero-valued config fields are
replaced by the defaults. -/
def NewClient (cfg : Config) : Client :=
  let cfg := if cfg.baseURL = "" then { cfg with baseURL := BaseURL } else cfg
  let cfg := if cfg.timeout = 0 then { cfg with timeout := DefaultTimeout } else cfg
  let cfg := if cfg.maxRetries = 0 then { cfg with maxRetries := DefaultMaxRetries } else cfg
  { baseURL := cfg.baseURL, apiKey := cfg.apiKey,
    httpTimeout := cfg.timeout, maxRetries := cfg.maxRetries }

/-- The transport-level result of one HTTP attempt, as observed by
`Client.doRequest`: either the transport failed (request creation,
connection, or body read), or a full HTTP response was obtained. -/
inductive AttemptOutcome where
  | transportError
  | response (resp : Response)
  deriving DecidableEq, Repr

/-- An error returned by a single `doRequest` call: a wrapped transport
error, or the `APIError` classification of a status ≥ 400 response. -/
inductive AttemptErr where
  | transport
  | api (e : APIError)
  deriving DecidableEq, Repr

/-- Embedding of `Client.doRequest` as a function of the attempt
outcome: a transport error yields `(nil, err)`; a response with status
≥ 400 yields the response TOGETHER with its classified `APIError`; any
other response yields `(resp, nil)`. -/
def doRequest (out : AttemptOutcome) : Option Response × Option AttemptErr :=
  match out with
  | .transportError => (none, some .transport)
  | .response resp =>
      if 400 ≤ resp.statusCode then
        (some resp, some (.api (parseError resp.statusCode resp.body)))
      else
        (some resp, none)

/-- The error component of `Client.Do`: the empty-API-key guard, the
URL-parse failure, the context cancellation error won during a backoff
wait, or the final wrapped failure stating the retry count. -/
inductive DoErr where
  | keyRequired
  | invalidEndpoint
  | ctxErr
  | requestFailed (maxRetries : Int) (last : Option AttemptErr)
  deriving DecidableEq, Repr

/-- The observable result of `Client.Do`: the returned response and
error, the number of `doRequest` calls performed, and the list of
completed backoff waits in seconds. -/
structure DoTrace where
  resp : Option Response
  err : Option DoErr
  attempts : Nat
  waits : List Nat
  deriving DecidableEq, Repr

/-- The backoff before retry `attempt` is
`time.Duration(attempt) * time.Second`, i.e. `attempt` seconds. -/
def backoffSeconds (attempt : Nat) : Nat := attempt * 1

/-- The fail-fast test of the retry loop:
`resp != nil && 400 <= resp.StatusCode < 500 && resp.StatusCode != 429`. -/
def failFast (r? : Option Response) : Bool :=
  match r? with
  | some r => decide (400 ≤ r.statusCode ∧ r.statusCode < 500 ∧ r.statusCode ≠ 429)
  | none => false

/-- The retry loop of `Client.Do`. `fuel` is the number of remaining
loop iterations (`maxRetries + 1 - attempt` clipped at zero), `attempt`
the current 0-based attempt index, `lastErr` the last attempt error,
`waits` the completed backoff waits so far. Before each retry
(`attempt > 0`) the backoff wait races context cancellation: if
`cancel attempt` fires, the loop returns `ctx.Err()` immediately and
the wait is not completed. -/
def doLoop (server : Nat → AttemptOutcome) (cancel : Nat → Bool) (maxRetries : Int) :
    Nat → Nat → Option AttemptErr → List Nat → DoTrace
  | 0, attempt, lastErr, waits =>
      { resp := none, err := some (.requestFailed maxRetries lastErr),
        attempts := attempt, waits := waits }
  | fuel + 1, attempt, lastErr, waits =>
      if 0 < attempt && cancel attempt then
        { resp := none, err := some .ctxErr, attempts := attempt, waits := waits }
      else
        let waits := if 0 < attempt then waits ++ [backoffSeconds attempt] else waits
        match doRequest (server attempt) with
        | (r?, none) =>
            { resp := r?, err := none, attempts := attempt + 1, waits := waits }
        | (r?, some e) =>
            if failFast r? then
              { resp := none, err := some (.requestFailed maxRetries (some e)),
                attempts := attempt + 1, waits := waits }
            else
              doLoop server cancel maxRetries fuel (attempt + 1) (some e) waits

/-- Embedding of `Client.Do`. `urlOk` is whether
`url.Parse(baseURL + endpoint)` succeeded; `server` gives the transport
outcome of each attempt; `cancel` tells whether the context is
cancelled during the backoff wait preceding the given attempt. -/
def clientDo (c : Client) (urlOk : Bool) (server : Nat → AttemptOutcome)
    (cancel : Nat → Bool) : DoTrace :=
  if c.apiKey = "" then
    { resp := none, err := some .keyRequired, attempts := 0, waits := [] }
  else if !urlOk then
    { resp := none, err := some .invalidEndpoint, attempts := 0, waits := [] }
  else
    doLoop server cancel c.maxRetries (c.maxRetries + 1).toNat 0 none []

/-- A canonical meta value for concrete test responses. -/
def meta0 : ResponseMeta := ⟨0, 0, 5⟩

/-- A concrete response with the given status and an empty undecodable
body, for concrete scenarios. -/
def plainResp (status : Nat) : Response := ⟨status, ⟨"", false, "", ""⟩, [], meta0⟩

/-- A concrete client with key "k" and three retries. -/
def testClient : Client := ⟨BaseURL, "k", DefaultTimeout, 3⟩

/-- A concrete response body for a 500 status that carries a JSON
error object with a non-empty code and message. -/
def serverErrBody : ErrBody :=
  ⟨"\x7b\"error\":\x7b\"code\":\"X\",\"message\":\"m\"\x7d\x7d", true, "X", "m"⟩

/-- An attempt outcome on which the retry loop keeps retrying: a
transport error, or an error response with status ≥ 500 or = 429. -/
def retryFailing (o : AttemptOutcome) : Bool :=
  match o with
  | .transportError => true
  | .response r => decide (400 ≤ r.statusCode ∧ (500 ≤ r.statusCode ∨ r.statusCode = 429))

/-- A response attempt outcome with a 5xx status. -/
def is5xx (o : AttemptOutcome) : Bool :=
  match o with
  | .transportError => false
  | .response r => decide (500 ≤ r.statusCode ∧ r.statusCode ≤ 599)

/-- The attempt error `doRequest` produces for a failing outcome. -/
def attemptErrOf (o : AttemptOutcome) : AttemptErr :=
  match o with
  | .transportError => .transport
  | .response r => .api (parseError r.statusCode r.body)

/-- A concrete server failing with 500 on attempts 0 and 1 and
answering 200 from attempt 2 on. -/
def flaky2Server : Nat → AttemptOutcome :=
  fun k => .response (plainResp (if k < 2 then 500 else 200))

/-- A concrete server failing with 500 on every attempt. -/
def always500Server : Nat → AttemptOutcome := fun _ => .response (plainResp 500)

/-- A dynamic Go value as the `output` package inspects it through
`reflect`: an invalid (nil interface) value, a scalar carrying its
`%v` formatting, a map (entries listed in iteration order, keys
stringified), a slice or array, or a struct with fields in declaration
order. Each struct field records its name, its `json` tag (empty when
absent) and whether it is exported. -/
inductive GoValue where
  | nilV
  | scalar (s : String)
  | mapV (entries : List (String × GoValue))
  | seqV (elems : List GoValue)
  | structV (fields : List (String × String × Bool × GoValue))

/-- The name of a struct field entry. -/
def fldName (f : String × String × Bool × GoValue) : String := f.1

/-- The `json` tag of a struct field entry. -/
def fldTag (f : String × String × Bool × GoValue) : String := f.2.1

/-- Whether a struct field entry is exported. -/
def fldExported (f : String × String × Bool × GoValue) : Bool := f.2.2.1

/-- The value of a struct field entry. -/
def fldValue (f : String × String × Bool × GoValue) : GoValue := f.2.2.2

/-- Go `strings.Repeat("  ", indent)`. -/
def indentStr (n : Nat) : String := String.join (List.replicate n "  ")

mutual

/-- Embedding of `Writer.writeYAMLValue`: an invalid value prints
`nil` on its own line; a map prints each key as a `key:` header line
and recurses one level deeper; a slice/array prints `-` per element
and recurses one level deeper; a struct prints each exported field
name as a header line and recurses one level deeper; any other
(scalar) value prints its `%v` on its own line at the current
indent. -/
def writeYAMLValue : GoValue → Nat → String
  | .nilV, indent => indentStr indent ++ "nil" ++ "\n"
  | .scalar s, indent => indentStr indent ++ s ++ "\n"
  | .mapV entries, indent => writeYAMLEntries entries indent
  | .seqV elems, indent => writeYAMLElems elems indent
  | .structV fields, indent => writeYAMLFields fields indent

/-- The map loop of `writeYAMLValue`. -/
def writeYAMLEntries : List (String × GoValue) → Nat → String
  | [], _ => ""
  | (k, v) :: rest, indent =>
      indentStr indent ++ k ++ ":" ++ "\n" ++ writeYAMLValue v (indent + 1)
        ++ writeYAMLEntries rest indent

/-- The slice loop of `writeYAMLValue`. -/
def writeYAMLElems : List GoValue → Nat → String
  | [], _ => ""
  | v :: rest, indent =>
      indentStr indent ++ "-" ++ "\n" ++ writeYAMLValue v (indent + 1)
        ++ writeYAMLElems rest indent

/-- The struct-field loop of `writeYAMLValue` (exported fields only). -/
def writeYAMLFields : List (String × String × Bool × GoValue) → Nat → String
  | [], _ => ""
  | f :: rest, indent =>
      (if fldExported f then
        indentStr indent ++ fldName f ++ ":" ++ "\n"
          ++ writeYAMLValue (fldValue f) (indent + 1)
      else "") ++ writeYAMLFields rest indent

end

mutual

/-- The YAML-like dump described line by line: a map key or exported
struct field emits a `key:` header line with its value rendered one
level deeper on the following lines; a sequence element emits a `-`
line with its value one level deeper; a scalar (or nil) is a single
line at its own indent. -/
def yamlLines : GoValue → Nat → List String
  | .nilV, i => [indentStr i ++ "nil"]
  | .scalar s, i => [indentStr i ++ s]
  | .mapV entries, i => yamlEntryLines entries i
  | .seqV elems, i => yamlElemLines elems i
  | .structV fields, i => yamlFieldLines fields i

/-- Line description of the map loop. -/
def yamlEntryLines : List (String × GoValue) → Nat → List String
  | [], _ => []
  | (k, v) :: rest, i =>
      (indentStr i ++ k ++ ":") :: (yamlLines v (i + 1) ++ yamlEntryLines rest i)

/-- Line description of the slice loop. -/
def yamlElemLines : List GoValue → Nat → List String
  | [], _ => []
  | v :: rest, i =>
      (indentStr i ++ "-") :: (yamlLines v (i + 1) ++ yamlElemLines rest i)

/-- Line description of the struct-field loop. -/
def yamlFieldLines : List (String × String × Bool × GoValue) → Nat → List String
  | [], _ => []
  | f :: rest, i =>
      (if fldExported f then
        (indentStr i ++ fldName f ++ ":") :: yamlLines (fldValue f) (i + 1)
      else []) ++ yamlFieldLines rest i

end

/-- Terminate every line with a newline and concatenate. -/
def unlines (ls : List String) : String := ls.foldr (fun l acc => l ++ "\n" ++ acc) ""

/-- Embedding of `Writer.writeYAML`: the fixed success header then the
recursive dump of the payload at indent 1 (the meta argument is
ignored by the source). -/
def writeYAML (data : GoValue) (meta : Option ResponseMeta) : String :=
  "status: success\n" ++ "data:\n" ++ writeYAMLValue data 1

mutual

/-- Go `fmt.Sprintf("%v", x)` over the modelled value shapes: scalars
carry their own rendering, nil prints `<nil>`, slices print
space-separated elements in brackets, maps print `map[k:v ...]` (fmt
renders map keys in sorted order; the model presents entries already in
that rendering order), structs print their field values in braces. -/
def goFormat : GoValue → String
  | .nilV => "<nil>"
  | .scalar s => s
  | .mapV entries => "map[" ++ goFormatEntries entries ++ "]"
  | .seqV elems => "[" ++ goFormatElems elems ++ "]"
  | .structV fields => "\x7b" ++ goFormatFields fields ++ "\x7d"

/-- Format map entries as `%v` does, space separated. -/
def goFormatEntries : List (String × GoValue) → String
  | [] => ""
  | [(k, v)] => k ++ ":" ++ goFormat v
  | (k, v) :: e :: rest => k ++ ":" ++ goFormat v ++ " " ++ goFormatEntries (e :: rest)

/-- Format slice elements as `%v` does, space separated. -/
def goFormatElems : List GoValue → String
  | [] => ""
  | [v] => goFormat v
  | v :: e :: rest => goFormat v ++ " " ++ goFormatElems (e :: rest)

/-- Format struct field values as `%v` does, space separated. -/
def goFormatFields : List (String × String × Bool × GoValue) → String
  | [] => ""
  | [f] => goFormat (fldValue f)
  | f :: g :: rest => goFormat (fldValue f) ++ " " ++ goFormatFields (g :: rest)

end

/-- The serialization name of a struct field, as both `extractHeaders`
and `extractRow` compute it: the first comma-separated component of the
`json` tag when the tag is present and not `-`, else the field name. -/
def csvFieldName (f : String × String × Bool × GoValue) : String :=
  if fldTag f != "" && fldTag f != "-" then ((fldTag f).splitOn ",").headD ""
  else fldName f

/-- Embedding of `output.extractHeaders`: map keys (stringified), or
the serialization names of the exported struct fields; empty for any
other shape. -/
def extractHeaders (v : GoValue) : List String :=
  match v with
  | .mapV entries => entries.map Prod.fst
  | .structV fields => (fields.filter fldExported).map csvFieldName
  | _ => []

/-- Embedding of `output.extractRow`: each header is looked up by exact
key (maps) or serialization name (structs, all fields); a missing match
leaves the empty cell. -/
def extractRow (v : GoValue) (headers : List String) : List String :=
  match v with
  | .mapV entries =>
      headers.map (fun h =>
        match entries.find? (fun e => e.1 == h) with
        | some e => goFormat e.2
        | none => "")
  | .structV fields =>
      headers.map (fun h =>
        match fields.find? (fun f => csvFieldName f == h) with
        | some f => goFormat (fldValue f)
        | none => "")
  | _ => headers.map (fun _ => "")

/-- Whether a value has slice/array kind. -/
def isSeqKind : GoValue → Bool
  | .seqV _ => true
  | _ => false

/-- The map-unwrapping loop shared by `writeCSV` and `writeTable`: a
map payload is replaced by its first sequence-valued entry in iteration
order (the model lists entries in that order and takes each entry
value at its structural kind); any other payload is kept. -/
def csvUnwrap (v : GoValue) : GoValue :=
  match v with
  | .mapV entries =>
      match entries.find? (fun e => isSeqKind e.2) with
      | some e => e.2
      | none => .mapV entries
  | _ => v

/-- Go `unicode.IsSpace` on the leading rune, restricted to the space
characters of the Latin-1 range handled by this CLI's data. -/
def goIsSpace (c : Char) : Bool :=
  c = ' ' || c = '\t' || c = '\n' || c = '\r'
    || c = Char.ofNat 11 || c = Char.ofNat 12
    || c = Char.ofNat 133 || c = Char.ofNat 160

/-- Embedding of `encoding/csv` `fieldNeedsQuotes` with the default
comma separator. -/
def csvFieldNeedsQuotes (s : String) : Bool :=
  if s = "" then false
  else if s = "\\." then true
  else if s.any (fun c => c = ',' || c = '"' || c = '\r' || c = '\n') then true
  else goIsSpace s.front

/-- Double every quote, as the quoted-field writer does with
`UseCRLF = false`. -/
def csvEscape (s : String) : String :=
  s.foldl (fun acc c => acc ++ (if c = '"' then "\"\"" else c.toString)) ""

/-- One CSV field, quoted when needed. -/
def csvField (s : String) : String :=
  if csvFieldNeedsQuotes s then "\"" ++ csvEscape s ++ "\"" else s

/-- One CSV record: comma-joined fields and the `\n` terminator. -/
def csvRecord (fields : List String) : String :=
  String.intercalate "," (fields.map csvField) ++ "\n"

/-- Embedding of `Writer.writeCSV`: unwrap a map payload to its first
sequence entry; fail unless the result is a sequence; write nothing for
an empty sequence; otherwise write the header row derived from the
first element and one row per element. -/
def writeCSV (data : GoValue) : Except String String :=
  match csvUnwrap data with
  | .seqV [] => .ok ""
  | .seqV (first :: rest) =>
      let headers := extractHeaders first
      .ok (csvRecord headers
        ++ String.join ((first :: rest).map (fun e => csvRecord (extractRow e headers))))
  | _ => .error "CSV format requires array/slice data"

/-- A JSON value, for the exact bytes produced by `encoding/json`. -/
inductive JValue where
  | str (s : String)
  | num (n : Int)
  | obj (fields : List (String × JValue))
  | arr (elems : List JValue)

/-- The indentation produced by `SetIndent("", "  ")` at a depth. -/
def jsonIndent (d : Nat) : String := String.join (List.replicate d "  ")

/-- A lowercase hexadecimal digit. -/
def hexDigit (n : Nat) : Char := if n < 10 then Char.ofNat (48 + n) else Char.ofNat (87 + n)

/-- Go `encoding/json` string escaping with its default HTML escaping. -/
def jsonEscapeChar (c : Char) : String :=
  if c = '"' then "\\\""
  else if c = '\\' then "\\\\"
  else if c = '\n' then "\\n"
  else if c = '\r' then "\\r"
  else if c = '\t' then "\\t"
  else if c = '<' then "\\u003c"
  else if c = '>' then "\\u003e"
  else if c = '&' then "\\u0026"
  else if c.toNat < 32 then
    "\\u00" ++ (hexDigit (c.toNat / 16)).toString ++ (hexDigit (c.toNat % 16)).toString
  else c.toString

/-- A JSON string literal. -/
def jsonQuote (s : String) : String :=
  "\"" ++ String.join (s.data.map jsonEscapeChar) ++ "\""

mutual

/-- The bytes `encoding/json` writes for a value at a nesting depth
with `SetIndent("", "  ")`. Go serializes map keys in sorted order; the
`obj` field lists below are presented already in that order. -/
def jsonEncode : JValue → Nat → String
  | .str s, _ => jsonQuote s
  | .num n, _ => toString n
  | .obj [], _ => "\x7b\x7d"
  | .obj (f :: fs), depth =>
      "\x7b\n" ++ jsonFields (f :: fs) (depth + 1) ++ "\n" ++ jsonIndent depth ++ "\x7d"
  | .arr [], _ => "[]"
  | .arr (e :: es), depth =>
      "[\n" ++ jsonItems (e :: es) (depth + 1) ++ "\n" ++ jsonIndent depth ++ "]"

/-- Indented object fields, comma-newline separated. -/
def jsonFields : List (String × JValue) → Nat → String
  | [], _ => ""
  | [(k, v)], depth => jsonIndent depth ++ jsonQuote k ++ ": " ++ jsonEncode v depth
  | (k, v) :: f :: fs, depth =>
      jsonIndent depth ++ jsonQuote k ++ ": " ++ jsonEncode v depth ++ ",\n"
        ++ jsonFields (f :: fs) depth

/-- Indented array items, comma-newline separated. -/
def jsonItems : List JValue → Nat → String
  | [], _ => ""
  | [v], depth => jsonIndent depth ++ jsonEncode v depth
  | v :: e :: es, depth =>
      jsonIndent depth ++ jsonEncode v depth ++ ",\n" ++ jsonItems (e :: es) depth

end

/-- An error value as the `output` package receives it: either the
client's `*APIError` or any other error carrying only its message. -/
inductive GoError where
  | apiError (a : APIError)
  | basic (msg : String)

/-- Go `err.Error()`: `APIError.Error` formats
`"API error (%d): %s"`; other errors return their message. -/
def goErrorMessage : GoError → String
  | .apiError a => "API error (" ++ toString a.statusCode ++ "): " ++ a.message
  | .basic msg => msg

/-- Embedding of `output.formatError`: a `message` entry from
`err.Error()`; for an `APIError` the code and message, plus suggestion
and docs URL when non-empty. Entries are listed in the sorted key order
in which `encoding/json` serializes Go maps. -/
def formatError : GoError → List (String × JValue)
  | .basic msg => [("message", .str msg)]
  | .apiError a =>
      [("code", .str a.code)]
        ++ (if a.docsURL != "" then [("docs_url", .str a.docsURL)] else [])
        ++ [("message", .str a.message)]
        ++ (if a.suggestion != "" then [("suggestion", .str a.suggestion)] else [])

/-- The `output.FormatJSON` constant. -/
def FormatJSON : String := "json"

/-- The `output.FormatYAML` constant. -/
def FormatYAML : String := "yaml"

/-- The `output.FormatCSV` constant. -/
def FormatCSV : String := "csv"

/-- The `output.FormatTable` constant. -/
def FormatTable : String := "table"

/-- Embedding of `output.Writer`: the selected format (the sink is
modelled by returning the written bytes). -/
structure Writer where
  format : String

/-- Embedding of `Writer.WriteError`: regardless of the selected
format, JSON-encode `\x7bstatus: "error", error: formatError(err)\x7d`
with 2-space indentation; `Encoder.Encode` appends a newline. -/
def writeError (w : Writer) (e : GoError) : String :=
  jsonEncode (.obj [("error", .obj (formatError e)), ("status", .str "error")]) 0 ++ "\n"

/-- The error counterpart of the YAML success engine as the spec
describes it (`status` header, then the error mapping dumped one level
deep by the same YAML-like dumper used for success). The source has no
per-format error renderer; this definition follows the spec's words,
for comparison with `writeError`. -/
def goErrValue : GoError → GoValue
  | .basic msg => .mapV [("message", .scalar msg)]
  | .apiError a =>
      .mapV ([("code", .scalar a.code)]
        ++ (if a.docsURL != "" then [("docs_url", .scalar a.docsURL)] else [])
        ++ [("message", .scalar a.message)]
        ++ (if a.suggestion != "" then [("suggestion", .scalar a.suggestion)] else []))

/-- The spec's `renderError` in the YAML-like format: the same engine
used for success applied to the error envelope. Follows the spec's
words; the source has no such renderer. -/
def specRenderErrorYAML (e : GoError) : String :=
  "status: error\n" ++ "error:\n" ++ writeYAMLValue (goErrValue e) 1

example : (parseError 401 ⟨"x", false, "", ""⟩).code = "AUTH_ERROR" := by decide

example : (parseError 500 ⟨"b", true, "X", "m"⟩).code = "X" := by decide

example : (parseError 599 ⟨"", false, "", ""⟩).message = "" := by decide

example :
    clientDo { testClient with apiKey := "" } true (fun _ => .response (plainResp 200))
      (fun _ => false) = ⟨none, some .keyRequired, 0, []⟩ := by decide

example :
    (clientDo testClient true
      (fun k => .response (plainResp (if k < 2 then 500 else 200))) (fun _ => false)).attempts
      = 3 := by decide

example :
    (clientDo testClient true
      (fun k => .response (plainResp (if k < 2 then 500 else 200))) (fun _ => false)).waits
      = [1, 2] := by decide

example :
    (clientDo testClient true (fun _ => .response (plainResp 400)) (fun _ => false)).attempts
      = 1 := by decide

example :
    (clientDo { testClient with maxRetries := -1 } true (fun _ => .transportError)
      (fun _ => false)).attempts = 0 := by decide

example :
    (clientDo testClient true (fun _ => .response (plainResp 500)) (fun k => k = 2))
      = ⟨none, some .ctxErr, 2, [1]⟩ := by decide

/-- C1 counterexample: on status 500 with a body whose JSON decodes to
error code "X" and a non-empty message, `parseError` keeps code "X"; the
claim demands an empty code for statuses outside the table. -/
theorem parseError_unrecognized_status_keeps_json_code :
    (parseError 500 serverErrBody).code = "X" ∧ "X" ≠ "" := by decide

/-- The auth suggestion literal is non-empty. -/
lemma authSuggestion_ne :
    ("Check your API key. Run \x27ahrefs config set-key <your-key>\x27 to configure" : String)
      ≠ "" := by decide

/-- The rate-limit suggestion literal is non-empty. -/
lemma rateSuggestion_ne :
    ("Rate limit exceeded. Wait before retrying or check your subscription limits" : String)
      ≠ "" := by decide

/-- The validation suggestion literal is non-empty. -/
lemma validationSuggestion_ne :
    ("Check request parameters. Use --describe flag to see valid options" : String)
      ≠ "" := by decide

/-- The not-found suggestion literal is non-empty. -/
lemma notFoundSuggestion_ne :
    ("Endpoint or resource not found. Verify the target and endpoint" : String)
      ≠ "" := by decide

/-- C1 (amended): for statuses 401/403, 429, 400, 404 `parseError`
returns the fixed code with a non-empty suggestion; for every other
status the suggestion is empty and the code is the JSON `error.code`
when the body decodes with a non-empty message, empty otherwise. -/
theorem parseError_code_table (status : Nat) (b : ErrBody) :
    ((status = 401 ∨ status = 403) →
      (parseError status b).code = "AUTH_ERROR" ∧ (parseError status b).suggestion ≠ "")
    ∧ (status = 429 →
      (parseError status b).code = "RATE_LIMIT_ERROR" ∧ (parseError status b).suggestion ≠ "")
    ∧ (status = 400 →
      (parseError status b).code = "VALIDATION_ERROR" ∧ (parseError status b).suggestion ≠ "")
    ∧ (status = 404 →
      (parseError status b).code = "NOT_FOUND" ∧ (parseError status b).suggestion ≠ "")
    ∧ (status ≠ 401 → status ≠ 403 → status ≠ 429 → status ≠ 400 → status ≠ 404 →
      (parseError status b).suggestion = ""
      ∧ (parseError status b).code =
          (if b.decodeOk && b.decodedMessage != "" then b.decodedCode else "")) := by
  refine ⟨?_, ?_, ?_, ?_, ?_⟩
  · rintro (rfl | rfl) <;> exact ⟨rfl, authSuggestion_ne⟩
  · rintro rfl; exact ⟨rfl, rateSuggestion_ne⟩
  · rintro rfl; exact ⟨rfl, validationSuggestion_ne⟩
  · rintro rfl; exact ⟨rfl, notFoundSuggestion_ne⟩
  · intro h1 h2 h3 h4 h5
    have hor : ¬(status = 401 ∨ status = 403) := by
      rintro (h | h)
      · exact h1 h
      · exact h2 h
    by_cases hb : (b.decodeOk && b.decodedMessage != "") = true <;>
      simp [parseError, hor, h3, h4, h5, hb]

/-- C1 witness: instantiation of the table at status 401 and at a
status outside the table. -/
theorem parseError_code_table_witness :
    ((parseError 401 serverErrBody).code = "AUTH_ERROR"
      ∧ (parseError 401 serverErrBody).suggestion ≠ "")
    ∧ ((parseError 500 serverErrBody).suggestion = ""
      ∧ (parseError 500 serverErrBody).code =
          (if serverErrBody.decodeOk && serverErrBody.decodedMessage != "" then
            serverErrBody.decodedCode else "")) :=
  ⟨(parseError_code_table 401 serverErrBody).1 (Or.inl rfl),
    (parseError_code_table 500 serverErrBody).2.2.2.2
      (by decide) (by decide) (by decide) (by decide) (by decide)⟩

/-- C3 counterexample: for status 599 (no standard status text) and an
empty, undecodable body, the classified error message is empty; the
claim asserts the message is always non-empty. -/
theorem parseError_unknown_status_empty_body :
    (parseError 599 ⟨"", false, "", ""⟩).message = "" ∧ statusText 599 = "" := by decide

/-- C3 (amended): the message is the decoded JSON `error.message` when
the body decodes with a non-empty message, else the raw body, else the
standard status text; it is non-empty exactly when one of those three
sources is non-empty (for an empty body and a status code outside the
standard status-text table the message is empty). -/
theorem parseError_message_fallback (status : Nat) (b : ErrBody) :
    (parseError status b).message =
      (if b.decodeOk && b.decodedMessage != "" then b.decodedMessage
       else if b.raw = "" then statusText status else b.raw)
    ∧ ((parseError status b).message ≠ "" ↔
        ((b.decodeOk && b.decodedMessage != "") = true ∨ b.raw ≠ ""
          ∨ statusText status ≠ "")) := by
  have hmsg : (parseError status b).message =
      (if b.decodeOk && b.decodedMessage != "" then b.decodedMessage
       else if b.raw = "" then statusText status else b.raw) := by
    by_cases hb : (b.decodeOk && b.decodedMessage != "") = true <;>
      simp only [parseError, hb, if_true, if_false, Bool.false_eq_true] <;>
      split_ifs <;> simp_all
  refine ⟨hmsg, ?_⟩
  rw [hmsg]
  by_cases hb : (b.decodeOk && b.decodedMessage != "") = true
  · have hne : b.decodedMessage ≠ "" := by
      have := (Bool.and_eq_true _ _).mp hb
      simpa [bne_iff_ne] using this.2
    simp [hb, hne]
  · by_cases hr : b.raw = "" <;> simp [hb, hr]

/-- C3 witness: the fallback chain evaluated at a concrete status and
body with a decodable JSON error. -/
theorem parseError_message_fallback_witness :
    (parseError 500 serverErrBody).message =
      (if serverErrBody.decodeOk && serverErrBody.decodedMessage != "" then
        serverErrBody.decodedMessage
       else if serverErrBody.raw = "" then statusText 500 else serverErrBody.raw)
    ∧ ((parseError 500 serverErrBody).message ≠ "" ↔
        ((serverErrBody.decodeOk && serverErrBody.decodedMessage != "") = true
          ∨ serverErrBody.raw ≠ "" ∨ statusText 500 ≠ "")) :=
  parseError_message_fallback 500 serverErrBody

/-- C5: with an empty API key, `Client.Do` fails with the
key-required error after zero attempts and zero backoff waits,
whatever the endpoint, server behavior, or context. -/
theorem clientDo_empty_key_fails_fast (c : Client) (urlOk : Bool)
    (server : Nat → AttemptOutcome) (cancel : Nat → Bool) (h : c.apiKey = "") :
    clientDo c urlOk server cancel = ⟨none, some .keyRequired, 0, []⟩ := by
  simp [clientDo, h]

/-- C5 witness: the empty-key guard at a concrete client and server. -/
theorem clientDo_empty_key_fails_fast_witness :
    clientDo { testClient with apiKey := "" } true (fun _ => .response (plainResp 200))
      (fun _ => false) = ⟨none, some .keyRequired, 0, []⟩ :=
  clientDo_empty_key_fails_fast _ true _ _ rfl

lemma is5xx_retryFailing (o : AttemptOutcome) (h : is5xx o = true) :
    retryFailing o = true := by
  cases o with
  | transportError => rfl
  | response r =>
      simp only [is5xx, retryFailing, decide_eq_true_eq] at h ⊢
      omega

lemma map_backoffSeconds (l : List Nat) : l.map backoffSeconds = l := by
  induction l <;> simp_all [backoffSeconds]

/-- One loop iteration that obtains a response with a success status. -/
lemma doLoop_success_step (server : Nat → AttemptOutcome) (cancel : Nat → Bool)
    (maxRetries : Int) (fuel attempt : Nat) (lastErr : Option AttemptErr)
    (waits : List Nat) (r : Response) (hs : server attempt = .response r)
    (hok : r.statusCode < 400) (hc : cancel attempt = false) :
    doLoop server cancel maxRetries (fuel + 1) attempt lastErr waits =
      { resp := some r, err := none, attempts := attempt + 1,
        waits := if 0 < attempt then waits ++ [backoffSeconds attempt] else waits } := by
  simp [doLoop, hs, hc, doRequest, Nat.not_le.mpr hok]

/-- One loop iteration that fails retryably and recurses. -/
lemma doLoop_fail_step (server : Nat → AttemptOutcome) (cancel : Nat → Bool)
    (maxRetries : Int) (fuel attempt : Nat) (lastErr : Option AttemptErr)
    (waits : List Nat) (hf : retryFailing (server attempt) = true)
    (hc : cancel attempt = false) :
    doLoop server cancel maxRetries (fuel + 1) attempt lastErr waits =
      doLoop server cancel maxRetries fuel (attempt + 1)
        (some (attemptErrOf (server attempt)))
        (if 0 < attempt then waits ++ [backoffSeconds attempt] else waits) := by
  cases h : server attempt with
  | transportError => simp [doLoop, h, hc, doRequest, failFast, attemptErrOf]
  | response r =>
      rw [h] at hf
      simp only [retryFailing, decide_eq_true_eq] at hf
      have hff : failFast (some r) = false := by
        simp only [failFast, decide_eq_false_iff_not]
        omega
      have h4 : 400 ≤ r.statusCode := hf.1
      simp [doLoop, h, hc, doRequest, attemptErrOf, hff, h4]

/-- One loop iteration interrupted by context cancellation during the
backoff wait. -/
lemma doLoop_cancel_step (server : Nat → AttemptOutcome) (cancel : Nat → Bool)
    (maxRetries : Int) (fuel attempt : Nat) (lastErr : Option AttemptErr)
    (waits : List Nat) (h1 : 0 < attempt) (hc : cancel attempt = true) :
    doLoop server cancel maxRetries (fuel + 1) attempt lastErr waits =
      { resp := none, err := some .ctxErr, attempts := attempt, waits := waits } := by
  simp [doLoop, h1, hc]

/-- A run of retryable failures from attempt `attempt ≥ 1` that ends
with a successful response at attempt `attempt + n`. -/
lemma doLoop_fail_run_success (server : Nat → AttemptOutcome) (cancel : Nat → Bool)
    (maxRetries : Int) :
    ∀ (n fuel attempt : Nat) (lastErr : Option AttemptErr) (waits : List Nat)
      (r : Response), 1 ≤ attempt → n + 1 ≤ fuel →
      (∀ k, k < n → retryFailing (server (attempt + k)) = true) →
      (∀ k, k ≤ n → cancel (attempt + k) = false) →
      server (attempt + n) = .response r → r.statusCode < 400 →
      doLoop server cancel maxRetries fuel attempt lastErr waits =
        { resp := some r, err := none, attempts := attempt + n + 1,
          waits := waits ++ (List.range' attempt (n + 1)).map backoffSeconds } := by
  intro n
  induction n with
  | zero =>
      intro fuel attempt lastErr waits r h1 hfuel _ hcancel hs hok
      obtain ⟨f, rfl⟩ : ∃ f, fuel = f + 1 := ⟨fuel - 1, by omega⟩
      have hc : cancel attempt = false := by simpa using hcancel 0 (by omega)
      have hs' : server attempt = .response r := by simpa using hs
      rw [doLoop_success_step server cancel maxRetries f attempt lastErr waits r hs' hok hc]
      have h1' : 0 < attempt := h1
      simp [h1', List.range'_succ]
  | succ n ih =>
      intro fuel attempt lastErr waits r h1 hfuel hfail hcancel hs hok
      obtain ⟨f, rfl⟩ : ∃ f, fuel = f + 1 := ⟨fuel - 1, by omega⟩
      have hc : cancel attempt = false := by simpa using hcancel 0 (by omega)
      have hf0 : retryFailing (server attempt) = true := by simpa using hfail 0 (by omega)
      rw [doLoop_fail_step server cancel maxRetries f attempt lastErr waits hf0 hc]
      have h1' : 0 < attempt := h1
      rw [if_pos h1']
      rw [ih f (attempt + 1) (some (attemptErrOf (server attempt)))
        (waits ++ [backoffSeconds attempt]) r (by omega) (by omega)
        (fun k hk => by
          have he : attempt + 1 + k = attempt + (k + 1) := by omega
          rw [he]
          exact hfail (k + 1) (by omega))
        (fun k hk => by
          have he : attempt + 1 + k = attempt + (k + 1) := by omega
          rw [he]
          exact hcancel (k + 1) (by omega))
        (by
          have he : attempt + 1 + n = attempt + (n + 1) := by omega
          rw [he]
          exact hs) hok]
      have hr : List.range' attempt (n + 1 + 1) =
          attempt :: List.range' (attempt + 1) (n + 1) := List.range'_succ attempt (n + 1) 1
      simp only [DoTrace.mk.injEq, hr, List.map_cons, List.append_assoc,
        List.singleton_append, and_true, true_and]
      omega

/-- A run of retryable failures from attempt `attempt ≥ 1` that ends
with context cancellation during the wait before attempt `attempt + n`. -/
lemma doLoop_fail_run_cancel (server : Nat → AttemptOutcome) (cancel : Nat → Bool)
    (maxRetries : Int) :
    ∀ (n fuel attempt : Nat) (lastErr : Option AttemptErr) (waits : List Nat),
      1 ≤ attempt → n + 1 ≤ fuel →
      (∀ k, k < n → retryFailing (server (attempt + k)) = true) →
      (∀ k, k < n → cancel (attempt + k) = false) →
      cancel (attempt + n) = true →
      doLoop server cancel maxRetries fuel attempt lastErr waits =
        { resp := none, err := some .ctxErr, attempts := attempt + n,
          waits := waits ++ (List.range' attempt n).map backoffSeconds } := by
  intro n
  induction n with
  | zero =>
      intro fuel attempt lastErr waits h1 hfuel _ _ hcancel
      obtain ⟨f, rfl⟩ : ∃ f, fuel = f + 1 := ⟨fuel - 1, by omega⟩
      have hc : cancel attempt = true := by simpa using hcancel
      rw [doLoop_cancel_step server cancel maxRetries f attempt lastErr waits h1 hc]
      simp
  | succ n ih =>
      intro fuel attempt lastErr waits h1 hfuel hfail hcancel hc
      obtain ⟨f, rfl⟩ : ∃ f, fuel = f + 1 := ⟨fuel - 1, by omega⟩
      have hc0 : cancel attempt = false := by simpa using hcancel 0 (by omega)
      have hf0 : retryFailing (server attempt) = true := by simpa using hfail 0 (by omega)
      rw [doLoop_fail_step server cancel maxRetries f attempt lastErr waits hf0 hc0]
      have h1' : 0 < attempt := h1
      rw [if_pos h1']
      rw [ih f (attempt + 1) (some (attemptErrOf (server attempt)))
        (waits ++ [backoffSeconds attempt]) (by omega) (by omega)
        (fun k hk => by
          have he : attempt + 1 + k = attempt + (k + 1) := by omega
          rw [he]
          exact hfail (k + 1) (by omega))
        (fun k hk => by
          have he : attempt + 1 + k = attempt + (k + 1) := by omega
          rw [he]
          exact hcancel (k + 1) (by omega))
        (by
          have he : attempt + 1 + n = attempt + (n + 1) := by omega
          rw [he]
          exact hc)]
      have hr : List.range' attempt (n + 1) =
          attempt :: List.range' (attempt + 1) n := List.range'_succ attempt n 1
      simp only [DoTrace.mk.injEq, hr, List.map_cons, List.append_assoc,
        List.singleton_append, and_true, true_and]
      omega

/-- C4: if the server fails with a 5xx status on the first N−1 attempts
and answers with a success status on attempt N (1-based,
N ≤ maxRetries+1), `Client.Do` returns the successful response, makes
exactly N attempts, and waits 1, 2, ..., N−1 seconds between them. -/
theorem clientDo_5xx_then_success (c : Client) (server : Nat → AttemptOutcome)
    (r : Response) (N : Nat) (hkey : c.apiKey ≠ "") (hN : 1 ≤ N)
    (hmax : (N : Int) ≤ c.maxRetries + 1)
    (hfail : ∀ k, k < N - 1 → is5xx (server k) = true)
    (hs : server (N - 1) = .response r) (hok : r.statusCode < 400) :
    clientDo c true server (fun _ => false) =
      { resp := some r, err := none, attempts := N, waits := List.range' 1 (N - 1) } := by
  have hfuel : N ≤ (c.maxRetries + 1).toNat := by omega
  unfold clientDo
  rw [if_neg hkey]
  simp only [Bool.not_true, Bool.false_eq_true, if_false]
  cases N with
  | zero => exact absurd hN (by omega)
  | succ n =>
  cases n with
  | zero =>
      obtain ⟨f, hf⟩ : ∃ f, (c.maxRetries + 1).toNat = f + 1 :=
        ⟨(c.maxRetries + 1).toNat - 1, by omega⟩
      rw [hf, doLoop_success_step server _ c.maxRetries f 0 none [] r (by simpa using hs)
        hok rfl]
      simp
  | succ m =>
      obtain ⟨f, hf⟩ : ∃ f, (c.maxRetries + 1).toNat = f + 1 :=
        ⟨(c.maxRetries + 1).toNat - 1, by omega⟩
      have hfm : m + 1 + 1 ≤ f + 1 := by omega
      rw [hf]
      have hf0 : retryFailing (server 0) = true :=
        is5xx_retryFailing _ (hfail 0 (by omega))
      rw [doLoop_fail_step server _ c.maxRetries f 0 none [] hf0 rfl]
      simp only [Nat.lt_irrefl, if_false]
      rw [doLoop_fail_run_success server _ c.maxRetries m f 1
        (some (attemptErrOf (server 0))) [] r le_rfl (by omega)
        (fun k hk => is5xx_retryFailing _ (by
          have he : 1 + k = k + 1 := by omega
          rw [he]
          exact hfail (k + 1) (by omega)))
        (fun k _ => rfl)
        (by
          have he : 1 + m = m + 2 - 1 := by omega
          rw [he]
          exact hs) hok]
      simp only [DoTrace.mk.injEq, List.nil_append, map_backoffSeconds,
        Nat.succ_sub_one, Nat.add_sub_cancel, true_and, and_true]
      omega

/-- C4 witness: two 500 failures then a 200 success on the third
attempt, with maxRetries = 3. -/
theorem clientDo_5xx_then_success_witness :
    clientDo testClient true flaky2Server (fun _ => false) =
      { resp := some (plainResp 200), err := none, attempts := 3,
        waits := List.range' 1 2 } :=
  clientDo_5xx_then_success testClient flaky2Server (plainResp 200) 3 (by decide)
    (by decide) (by decide) (by decide) (by decide) (by decide)

/-- C6: attempt 0 runs with no preceding wait; the completed backoff
wait before retry j is j seconds (j × 1s); and when the context fires
during the wait before retry k, `Client.Do` stops there, returns the
context error with no response, k attempts made and only the k−1
earlier waits completed. -/
theorem clientDo_backoff_and_cancel (c : Client) (server : Nat → AttemptOutcome)
    (k : Nat) (hkey : c.apiKey ≠ "") (hk : 1 ≤ k) (hmax : (k : Int) ≤ c.maxRetries)
    (hfail : ∀ j, j < k → retryFailing (server j) = true) :
    clientDo c true server (fun j => j == k) =
      { resp := none, err := some .ctxErr, attempts := k,
        waits := List.range' 1 (k - 1) } := by
  have hfuel : k + 1 ≤ (c.maxRetries + 1).toNat := by omega
  unfold clientDo
  rw [if_neg hkey]
  simp only [Bool.not_true, Bool.false_eq_true, if_false]
  obtain ⟨f, hf⟩ : ∃ f, (c.maxRetries + 1).toNat = f + 1 :=
        ⟨(c.maxRetries + 1).toNat - 1, by omega⟩
  have hc0 : (0 == k) = false := by simp; omega
  rw [hf, doLoop_fail_step server _ c.maxRetries f 0 none [] (hfail 0 (by omega)) hc0]
  simp only [Nat.lt_irrefl, if_false]
  rw [doLoop_fail_run_cancel server _ c.maxRetries (k - 1) f 1
    (some (attemptErrOf (server 0))) [] le_rfl (by omega)
    (fun j hj => by
      have he : 1 + j = j + 1 := by omega
      rw [he]
      exact hfail (j + 1) (by omega))
    (fun j hj => by simp; omega)
    (by simp; omega)]
  simp only [DoTrace.mk.injEq, List.nil_append, map_backoffSeconds, true_and, and_true]
  omega

/-- C6 witness: cancellation during the wait before retry 2 after two
failing attempts; one completed wait of 1 second. -/
theorem clientDo_backoff_and_cancel_witness :
    clientDo testClient true always500Server (fun j => j == 2) =
      { resp := none, err := some .ctxErr, attempts := 2,
        waits := List.range' 1 1 } :=
  clientDo_backoff_and_cancel testClient always500Server 2 (by decide) (by decide)
    (by decide) (by decide)

/-- In every result of the retry loop, a present error implies an
absent response. -/
lemma doLoop_resp_none_of_err (server : Nat → AttemptOutcome) (cancel : Nat → Bool)
    (maxRetries : Int) :
    ∀ (fuel attempt : Nat) (lastErr : Option AttemptErr) (waits : List Nat),
      (doLoop server cancel maxRetries fuel attempt lastErr waits).err.isSome = true →
      (doLoop server cancel maxRetries fuel attempt lastErr waits).resp = none := by
  intro fuel
  induction fuel with
  | zero => intro attempt lastErr waits _; rfl
  | succ f ih =>
      intro attempt lastErr waits
      simp only [doLoop]
      split
      · intro _; rfl
      · cases hdo : doRequest (server attempt) with
        | mk r? e? =>
            cases e? with
            | none => simp [hdo]
            | some e =>
                by_cases hff : failFast r? = true
                · simp [hdo, hff]
                · simp only [hdo, hff, Bool.false_eq_true, if_false]
                  exact ih (attempt + 1) (some e) _

/-- C2 counterexample: a client whose single attempt yields a 400
response gets `nil` back from `Client.Do` as the response, together
with an error — the response value is not returned to the caller. -/
theorem clientDo_discards_response_on_error :
    (clientDo testClient true (fun _ => .response (plainResp 400)) (fun _ => false)).resp
      = none
    ∧ (clientDo testClient true (fun _ => .response (plainResp 400))
        (fun _ => false)).err.isSome = true := by decide

/-- C2 (amended): for a status ≥ 400 attempt, `doRequest` returns the
response together with its classified `APIError`; `Client.Do`, however,
returns no response whenever it returns an error. -/
theorem doRequest_pairs_response_with_error (r : Response) (c : Client) (urlOk : Bool)
    (server : Nat → AttemptOutcome) (cancel : Nat → Bool) :
    (400 ≤ r.statusCode →
      doRequest (.response r) = (some r, some (.api (parseError r.statusCode r.body))))
    ∧ ((clientDo c urlOk server cancel).err.isSome = true →
        (clientDo c urlOk server cancel).resp = none) := by
  constructor
  · intro h4
    simp [doRequest, h4]
  · unfold clientDo
    split
    · intro _; rfl
    · split
      · intro _; rfl
      · exact doLoop_resp_none_of_err server cancel c.maxRetries _ 0 none []

/-- C2 witness: the pairing at a concrete 404 response and the
discarding at a concrete failing client run. -/
theorem doRequest_pairs_response_with_error_witness :
    doRequest (.response (plainResp 404)) =
      (some (plainResp 404), some (.api (parseError 404 (plainResp 404).body)))
    ∧ (clientDo testClient true (fun _ => .response (plainResp 404))
        (fun _ => false)).resp = none :=
  ⟨(doRequest_pairs_response_with_error (plainResp 404) testClient true
      (fun _ => .response (plainResp 404)) (fun _ => false)).1 (by decide),
    (doRequest_pairs_response_with_error (plainResp 404) testClient true
      (fun _ => .response (plainResp 404)) (fun _ => false)).2 (by decide)⟩

/-- C10 counterexample: a negative `MaxRetries` is preserved by
`NewClient`, and the resulting client performs zero attempts — the
configuration can disable retrying (and all attempts) entirely. -/
theorem NewClient_negative_retries_disable_attempts :
    (NewClient ⟨"k", "", 0, -1⟩).maxRetries = -1
    ∧ (clientDo (NewClient ⟨"k", "", 0, -1⟩) true (fun _ => .transportError)
        (fun _ => false)).attempts = 0 := by decide

/-- C10 (amended): `NewClient` replaces each zero-valued field by its
default (MaxRetries 0 ↦ 3, Timeout 0 ↦ 60s, empty BaseURL ↦ the
base-URL constant) and keeps every non-zero value, so no constructed
client has exactly zero retries; a negative MaxRetries, however,
passes through unchanged (and then disables all attempts). -/
theorem NewClient_zero_defaults (cfg : Config) :
    NewClient cfg =
      { baseURL := if cfg.baseURL = "" then BaseURL else cfg.baseURL,
        apiKey := cfg.apiKey,
        httpTimeout := if cfg.timeout = 0 then DefaultTimeout else cfg.timeout,
        maxRetries := if cfg.maxRetries = 0 then DefaultMaxRetries else cfg.maxRetries }
    ∧ (NewClient cfg).maxRetries ≠ 0 := by
  constructor
  · simp only [NewClient]
    split_ifs <;> simp_all
  · simp only [NewClient]
    split_ifs <;> simp_all [DefaultMaxRetries]

/-- C10 witness: the all-zero configuration (with a key) gets every
default. -/
theorem NewClient_zero_defaults_witness :
    (NewClient ⟨"k", "", 0, 0⟩ =
      { baseURL := if ("" : String) = "" then BaseURL else "",
        apiKey := "k",
        httpTimeout := if (0 : Int) = 0 then DefaultTimeout else 0,
        maxRetries := if (0 : Int) = 0 then DefaultMaxRetries else 0 })
    ∧ (NewClient ⟨"k", "", 0, 0⟩).maxRetries ≠ 0 :=
  NewClient_zero_defaults ⟨"k", "", 0, 0⟩

lemma unlines_nil : unlines [] = "" := rfl

lemma unlines_cons (a : String) (l : List String) :
    unlines (a :: l) = a ++ "\n" ++ unlines l := rfl

lemma unlines_append (l1 l2 : List String) :
    unlines (l1 ++ l2) = unlines l1 ++ unlines l2 := by
  induction l1 with
  | nil => simp [unlines_nil, String.empty_append]
  | cons a l ih => simp [unlines_cons, ih, String.append_assoc]

mutual

/-- The source dumper emits exactly the newline-terminated lines
described by `yamlLines`. -/
lemma writeYAMLValue_unlines (v : GoValue) (i : Nat) :
    writeYAMLValue v i = unlines (yamlLines v i) := by
  cases v with
  | nilV => simp [writeYAMLValue, yamlLines, unlines_cons, unlines_nil]
  | scalar s => simp [writeYAMLValue, yamlLines, unlines_cons, unlines_nil]
  | mapV entries => exact writeYAMLEntries_unlines entries i
  | seqV elems => exact writeYAMLElems_unlines elems i
  | structV fields => exact writeYAMLFields_unlines fields i

/-- Line correspondence for the map loop. -/
lemma writeYAMLEntries_unlines (es : List (String × GoValue)) (i : Nat) :
    writeYAMLEntries es i = unlines (yamlEntryLines es i) := by
  cases es with
  | nil => rfl
  | cons e rest =>
      obtain ⟨k, v⟩ := e
      have h1 := writeYAMLValue_unlines v (i + 1)
      have h2 := writeYAMLEntries_unlines rest i
      simp only [writeYAMLEntries, yamlEntryLines, unlines_cons, unlines_append, h1, h2,
        String.append_assoc]

/-- Line correspondence for the slice loop. -/
lemma writeYAMLElems_unlines (vs : List GoValue) (i : Nat) :
    writeYAMLElems vs i = unlines (yamlElemLines vs i) := by
  cases vs with
  | nil => rfl
  | cons v rest =>
      have h1 := writeYAMLValue_unlines v (i + 1)
      have h2 := writeYAMLElems_unlines rest i
      simp only [writeYAMLElems, yamlElemLines, unlines_cons, unlines_append, h1, h2,
        String.append_assoc]

/-- Line correspondence for the struct-field loop. -/
lemma writeYAMLFields_unlines (fs : List (String × String × Bool × GoValue)) (i : Nat) :
    writeYAMLFields fs i = unlines (yamlFieldLines fs i) := by
  cases fs with
  | nil => rfl
  | cons f rest =>
      have h1 := writeYAMLValue_unlines (fldValue f) (i + 1)
      have h2 := writeYAMLFields_unlines rest i
      by_cases he : fldExported f = true <;>
        simp only [writeYAMLFields, yamlFieldLines, he, if_true, if_false, unlines_cons,
          unlines_append, unlines_nil, h1, h2, String.append_assoc, Bool.false_eq_true,
          List.nil_append, String.empty_append]

end

/-- C8 counterexample: dumping the map `\x7ba: 1\x7d` prints the scalar
on its own line one level below the `a:` header, not inline on the
same line as the key as the claim asserts. -/
theorem writeYAML_scalar_on_own_line :
    writeYAML (.mapV [("a", .scalar "1")]) none = "status: success\ndata:\n  a:\n    1\n"
    ∧ writeYAML (.mapV [("a", .scalar "1")]) none ≠ "status: success\ndata:\n  a: 1\n" := by
  decide

/-- C8 (amended): the YAML-like dump is exactly the newline-joined
lines of `yamlLines`: each map key and exported struct field is a
`key:` header line with its value indented one level deeper on the
following lines, each sequence element is a `-` line with its value one
level deeper, and a scalar is printed on its own line at its indent
(one level below its header), not inline after the key. -/
theorem writeYAMLValue_line_structure (v : GoValue) (i : Nat) :
    writeYAMLValue v i = unlines (yamlLines v i)
    ∧ (∀ (k s : String) (j : Nat),
        yamlLines (.mapV [(k, .scalar s)]) j
          = [indentStr j ++ k ++ ":", indentStr (j + 1) ++ s]) :=
  ⟨writeYAMLValue_unlines v i, fun _ _ _ => rfl⟩

/-- C9: `writeCSV` fails with exactly the array/slice error when the
unwrapped payload is not a sequence, and writes zero bytes (no header
row) without error when the unwrapped payload is the empty sequence. -/
theorem writeCSV_error_iff (v : GoValue) :
    (writeCSV v = Except.error "CSV format requires array/slice data" ↔
      isSeqKind (csvUnwrap v) = false)
    ∧ (csvUnwrap v = .seqV [] → writeCSV v = .ok "") := by
  constructor
  · cases h : csvUnwrap v with
    | nilV => simp [writeCSV, h, isSeqKind]
    | scalar s => simp [writeCSV, h, isSeqKind]
    | mapV entries => simp [writeCSV, h, isSeqKind]
    | structV fields => simp [writeCSV, h, isSeqKind]
    | seqV elems => cases elems <;> simp [writeCSV, h, isSeqKind]
  · intro h
    simp [writeCSV, h]

/-- C9 witness: a map payload whose first sequence entry is empty gives
zero output and no error, and the error characterization holds there. -/
theorem writeCSV_error_iff_witness :
    ((writeCSV (.mapV [("x", .seqV [])]) =
        Except.error "CSV format requires array/slice data") ↔
      isSeqKind (csvUnwrap (.mapV [("x", .seqV [])])) = false)
    ∧ writeCSV (.mapV [("x", .seqV [])]) = .ok "" :=
  ⟨(writeCSV_error_iff _).1, (writeCSV_error_iff _).2 rfl⟩

/-- C7 counterexample: with the yaml format selected, `WriteError`
still emits the JSON error envelope, which differs from the YAML
engine's rendering of the same error, so error output is not
structurally parseable the way yaml success output is. -/
theorem writeError_json_despite_yaml :
    writeError ⟨FormatYAML⟩ (.basic "boom") =
      "\x7b\n  \"error\": \x7b\n    \"message\": \"boom\"\n  \x7d,\n  \"status\": \"error\"\n\x7d\n"
    ∧ writeError ⟨FormatYAML⟩ (.basic "boom") ≠ specRenderErrorYAML (.basic "boom") := by
  decide

/-- C7 (amended): `WriteError` ignores the selected format and always
produces the JSON error envelope (the `formatError` object under
`error` plus `status: "error"`, 2-space indented, newline terminated);
it coincides with the per-format success engine only for the JSON
format. -/
theorem writeError_always_json_engine (w w' : Writer) (e : GoError) :
    writeError w e = writeError w' e
    ∧ writeError w e =
        jsonEncode (.obj [("error", .obj (formatError e)), ("status", .str "error")]) 0
          ++ "\n" :=
  ⟨rfl, rfl⟩

end Ahrefs
